import Mathlib

/-!
Verification of the use-epics reactive state container (src/index.ts).

The embedding models, from the source: the StateObservable wrapper
(replay-on-subscribe and dedup), the ofType action filter, the shared
defaultOptions record and its Object.assign resolution, the
wrappedActions dispatch path of useEpics (non-immer reducer), the
deferred publication effect, and the epic subscription lifecycle.
External rxjs primitives (Subject, BehaviorSubject, pipe, the
Subscription handle) appear only through their public contracts, noted
at each definition.
-/

namespace UseEpics

/-! ### StateObservable (src/index.ts, class StateObservable) -/

/-- Model of a StateObservable instance: value is the latest accepted
state; notifierStopped models whether the internal notifier Subject has
been stopped (the code never stops it, but the subscribe function
inspects the subscription it gets back). -/
structure StateObservable (S : Type) where
  value : S
  notifierStopped : Bool

/-- The constructor tail: this.value = initialState, and __notifier is
a fresh (open) Subject. -/
def mkStateObservable {S : Type} (initialState : S) : StateObservable S :=
  { value := initialState, notifierStopped := false }

/-- The __subscription callback run once per value arriving from the
source channel: when the arriving value is not reference-equal to the
stored one, store it and broadcast it through the notifier; otherwise
do nothing. Reference equality on state values is modelled by
decidable equality. Returns the updated observable and the list of
values broadcast (empty or a singleton). -/
def stateArrive {S : Type} [DecidableEq S] (so : StateObservable S)
    (v : S) : StateObservable S × List S :=
  if v ≠ so.value then ({ so with value := v }, [v]) else (so, [])

/-- Fold of stateArrive over a whole list of arriving values,
collecting every broadcast in order. -/
def stateArriveAll {S : Type} [DecidableEq S] :
    StateObservable S → List S → StateObservable S × List S
  | so, [] => (so, [])
  | so, v :: rest =>
    let step := stateArrive so v
    let next := stateArriveAll step.1 rest
    (next.1, step.2 ++ next.2)

/-- The subscribe function handed to the Observable super constructor:
attach the subscriber to the notifier (a fresh Subject emits nothing at
that moment, and the subscription is open exactly when the notifier is
not stopped), then, if the subscription is open, synchronously deliver
the current value, after which every later broadcast is forwarded. The
result is the complete list of notifications a newly attached observer
receives, given the values that later arrive on the source channel. -/
def subscribeReceives {S : Type} [DecidableEq S] (so : StateObservable S)
    (laterArrivals : List S) : List S :=
  if so.notifierStopped then [] else
    so.value :: (stateArriveAll so laterArrivals).2

/-! ### ofType (src/index.ts, const ofType) -/

/-- Runtime shape of an action reaching ofType: the type tag is
optional (malformed actions may lack it). Stream entries may themselves
be absent (undefined), modelled with Option at the stream level. -/
structure RxAction (V : Type) where
  type : Option String
  payload : V

/-- The predicate ofType passes to filter: falsy entries are rejected
outright; otherwise the type tag is compared against the keys, with a
fast path when exactly one key was supplied and a loop over the keys
otherwise. -/
def ofTypeMatches {V : Type} (keys : List String) :
    Option (RxAction V) → Bool
  | none => false
  | some action =>
    let t := action.type
    if keys.length == 1 then
      t == some (keys.getD 0 "")
    else
      keys.any (fun k => t == some k)

/-- ofType applied to a source stream: the rxjs filter operator keeps
exactly the elements satisfying the predicate, unchanged and in source
order. -/
def ofType {V : Type} (keys : List String)
    (source : List (Option (RxAction V))) : List (Option (RxAction V)) :=
  source.filter (ofTypeMatches keys)

/-- The characterization the spec sentence states, written from its
words for comparison: keep exactly the present actions whose type tag
is one of the supplied names. -/
def ofTypeClaimed {V : Type} (keys : List String) :
    Option (RxAction V) → Bool
  | none => false
  | some action =>
    match action.type with
    | some t => keys.contains t
    | none => false

/-! ### Options handling (src/index.ts, defaultOptions and the
Object.assign line of useEpics) -/

/-- The module-level defaultOptions object; only the immer flag is
relevant here (init is modelled separately where needed). -/
structure OptionsRecord where
  immer : Bool
  deriving DecidableEq

/-- The options argument of a useEpics call: the immer field is either
present with a value or absent from the object. -/
structure OptionsArg where
  immer : Option Bool
  deriving DecidableEq

/-- Object.assign(defaultOptions, options): every property present on
options is written onto the defaults object, and that same mutated
object is returned. -/
def objectAssignDefaults (defaults : OptionsRecord)
    (options : OptionsArg) : OptionsRecord :=
  { immer := options.immer.getD defaults.immer }

/-- The initial value of the shared defaultOptions object. -/
def defaultOptionsInit : OptionsRecord := { immer := true }

/-- A sequence of useEpics calls, each resolving its options against
the module-level defaults. Because Object.assign mutates its target,
the defaults object carried into the next call is the object produced
by the previous resolution. Returns the immer flag each call
resolves. -/
def resolveOptionCalls : OptionsRecord → List OptionsArg → List Bool
  | _, [] => []
  | defaults, o :: rest =>
    let opts := objectAssignDefaults defaults o
    opts.immer :: resolveOptionCalls opts rest

/-! ### The dispatch path (src/index.ts, wrappedActions and the
reducer) -/

/-- Errors a callback invocation can surface: a TypeError raised by the
runtime, or an exception thrown by a handler. -/
inductive JsErr where
  | typeError
  | handlerError (msg : String)
  deriving DecidableEq

/-- A dispatched action as built at runtime: the payload is the single
value the destructuring of the caller argument array keeps (undefined,
i.e. none, when the caller passed no arguments). -/
structure ContAction (V : Type) where
  type : String
  payload : Option V
  deriving DecidableEq

/-- A handler map after the createActions state closure: for each
action name, either no handler, or a function from the current state
and the JS argument list it is invoked with (individual arguments may
themselves be undefined) to either a thrown error or a returned value,
where none models a void return. -/
def HandlerMap (S V : Type) : Type :=
  String → Option (S → List (Option V) → Except JsErr (Option S))

/-- The non-immer reducer update: look the type tag up in the handler
record built over the current state and invoke the handler with the
single argument action.payload. A missing handler means calling
undefined, which throws a TypeError. -/
def update {S V : Type} (handlers : HandlerMap S V) (state : S)
    (action : ContAction V) : Except JsErr (Option S) :=
  match handlers action.type with
  | some h => h state [action.payload]
  | none => Except.error JsErr.typeError

/-- The per-instance cells the dispatch path touches: the useReducer
state and the lastAction useState marker. -/
structure Container (S V : Type) where
  state : S
  lastAction : Option (ContAction V)
  deriving DecidableEq

/-- dispatchWithEpic as reached through wrappedActions: the generated
method collects the caller arguments into an array and hands it to
dispatchWithEpic, whose parameter destructures that array, keeping only
its first element as payload. Then nextState = reducer(state, action)
in non-immer mode; when nextState is defined the action is dispatched
into the reducer store (so the stored state becomes nextState), and in
either case the action is recorded via setLastAction. A handler throw
propagates out with nothing recorded. -/
def dispatchWithEpic {S V : Type} (handlers : HandlerMap S V)
    (c : Container S V) (type : String) (callerArgs : List (Option V)) :
    Except JsErr (Container S V) :=
  let payload : Option V := callerArgs.headD none
  let action : ContAction V := { type := type, payload := payload }
  match update handlers c.state action with
  | Except.error e => Except.error e
  | Except.ok nextState =>
    let c1 : Container S V :=
      match nextState with
      | some s => { c with state := s }
      | none => c
    Except.ok { c1 with lastAction := some action }

/-- A guarded callback invocation: the caller catches a thrown error,
in which case the container cells are exactly as they were. -/
def dispatchCaught {S V : Type} (handlers : HandlerMap S V)
    (c : Container S V) (type : String) (callerArgs : List (Option V)) :
    Container S V :=
  match dispatchWithEpic handlers c type callerArgs with
  | Except.ok c1 => c1
  | Except.error _ => c

/-! ### The state ref and the deferred publication effect
(src/index.ts, the mount effect and the lastAction effect) -/

/-- An rxjs stream reference as storable in stateRef.current: either an
actual BehaviorSubject, or the plain Observable an Observable.pipe call
returns. -/
inductive RxRef (S : Type) where
  | behaviorSubject (current : S)
  | pipedObservable
  deriving DecidableEq

/-- rxjs contract: source.pipe(op1, op2) returns a new plain Observable
wrapping the source. It is not a Subject, whatever the source was. -/
def rxPipe2 {S : Type} (_source : RxRef S) : RxRef S :=
  RxRef.pipedObservable

/-- What the mount effect stores into stateRef.current: a fresh
BehaviorSubject over the initialized state, piped through
observeOn(queueScheduler) and distinctUntilChanged, with the result
cast back to BehaviorSubject. The stored object is the piped plain
Observable. -/
def mkStateRef {S : Type} (initializedState : S) : RxRef S :=
  rxPipe2 (RxRef.behaviorSubject initializedState)

/-- Whether the stored object actually carries a next method. -/
def RxRef.hasNext {S : Type} : RxRef S → Bool
  | RxRef.behaviorSubject _ => true
  | RxRef.pipedObservable => false

/-- Calling r.next(v): on a BehaviorSubject this publishes v; on a
plain Observable the next property is undefined and the call throws a
TypeError. -/
def RxRef.callNext {S : Type} (r : RxRef S) (v : S) :
    Except JsErr (RxRef S) :=
  match r with
  | RxRef.behaviorSubject _ => Except.ok (RxRef.behaviorSubject v)
  | RxRef.pipedObservable => Except.error JsErr.typeError

/-- The two bus references of an activation: the state ref as stored by
the mount effect, and the log of actions pushed into the action
Subject, in push order. -/
structure Buses (S V : Type) where
  stateRef : RxRef S
  actionLog : List (ContAction V)
  deriving DecidableEq

/-- The deferred publication effect: when a lastAction is pending and
both refs are set, push the current state into stateRef.current, then
push the recorded action into actionRef.current, then clear the
marker. An exception thrown by the state push aborts the effect before
the action push runs. -/
def deferredPublicationEffect {S V : Type} (c : Container S V)
    (b : Buses S V) : Except JsErr (Container S V × Buses S V) :=
  match c.lastAction with
  | none => Except.ok (c, b)
  | some a =>
    match b.stateRef.callNext c.state with
    | Except.error e => Except.error e
    | Except.ok r1 =>
      Except.ok ({ c with lastAction := none },
        { stateRef := r1, actionLog := b.actionLog ++ [a] })

/-! ### Epic subscription lifecycle (src/index.ts, the mount effect) -/

/-- The Subscription handle rxjs returns from subscribing an epic
output stream; closed becomes true exactly when unsubscribe runs. -/
structure EpicSubscription where
  closed : Bool
  deriving DecidableEq

/-- The mount effect subscribes each epic output stream once. -/
def mountSubscriptions (numEpics : Nat) : List EpicSubscription :=
  List.replicate numEpics { closed := false }

/-- The effect cleanup, run on unmount and whenever the epics
dependency changes: unsubscribe every retained subscription. -/
def cleanupEffect (subs : List EpicSubscription) : List EpicSubscription :=
  subs.map (fun s => { s with closed := true })

/-- rxjs contract: a value pushed through a Subject is delivered to
exactly its live (non-closed) subscriptions. -/
def deliveredTo (subs : List EpicSubscription) : List EpicSubscription :=
  subs.filter (fun s => !s.closed)

/-! ### Concrete handler maps used to evaluate the code -/

/-- A handler map whose add handler records, into the state, the exact
JS argument list it was invoked with. -/
def argRecorder : HandlerMap (List (List (Option Nat))) Nat :=
  fun t =>
    if t = "add" then
      some (fun s args => Except.ok (some (s ++ [args])))
    else none

/-- The spec example increment handler over a numeric state. -/
def incHandlers : HandlerMap Nat Nat :=
  fun t =>
    if t = "increment" then some (fun s _ => Except.ok (some (s + 1)))
    else none

/-- The spec example incrementAsync handler: effect-only, returns
nothing. -/
def effectOnlyHandlers : HandlerMap Nat Nat :=
  fun t =>
    if t = "incrementAsync" then some (fun _ _ => Except.ok none)
    else none

/-- A handler that throws. -/
def throwingHandlers : HandlerMap Nat Nat :=
  fun t =>
    if t = "boom" then
      some (fun _ _ => Except.error (JsErr.handlerError "boom"))
    else none

/-! ### Helper lemmas -/

theorem stateArrive_stopped {S : Type} [DecidableEq S]
    (so : StateObservable S) (v : S) :
    (stateArrive so v).1.notifierStopped = so.notifierStopped := by
  unfold stateArrive
  split <;> rfl

theorem stateArriveAll_stopped {S : Type} [DecidableEq S]
    (vs : List S) (so : StateObservable S) :
    (stateArriveAll so vs).1.notifierStopped = so.notifierStopped := by
  induction vs generalizing so with
  | nil => rfl
  | cons v rest ih =>
    calc (stateArriveAll so (v :: rest)).1.notifierStopped
        = (stateArriveAll (stateArrive so v).1 rest).1.notifierStopped := rfl
      _ = (stateArrive so v).1.notifierStopped := ih _
      _ = so.notifierStopped := stateArrive_stopped so v

theorem any_beq_some_eq_contains (keys : List String) (t : String) :
    (keys.any (fun k => (some t : Option String) == some k))
      = keys.contains t := by
  induction keys with
  | nil => rfl
  | cons k rest ih =>
    show (((some t : Option String) == some k) || _) = _
    rw [ih]
    rfl

theorem any_beq_none_eq_false (keys : List String) :
    (keys.any (fun k => (none : Option String) == some k)) = false := by
  induction keys with
  | nil => rfl
  | cons k rest ih =>
    show (((none : Option String) == some k) || _) = _
    rw [ih]
    rfl

theorem ofTypeMatches_eq_claimed {V : Type} (keys : List String)
    (a : Option (RxAction V)) :
    ofTypeMatches keys a = ofTypeClaimed keys a := by
  cases a with
  | none => rfl
  | some act =>
    obtain ⟨atype, apayload⟩ := act
    cases keys with
    | nil =>
      cases atype <;> rfl
    | cons k rest =>
      cases rest with
      | nil =>
        cases atype with
        | none => rfl
        | some t =>
          show ((some t : Option String) == some k)
              = ([k].contains t)
          show (t == k) = (t == k || false)
          simp
      | cons k2 rest2 =>
        cases atype with
        | none =>
          show ((k :: k2 :: rest2).any
              (fun x => (none : Option String) == some x)) = false
          exact any_beq_none_eq_false _
        | some t =>
          show ((k :: k2 :: rest2).any
              (fun x => (some t : Option String) == some x))
            = ((k :: k2 :: rest2).contains t)
          exact any_beq_some_eq_contains _ t

/-! ### Claim theorems -/

/-- C4. Replay on subscribe: for any StateObservable produced by the
constructor, after any sequence of source arrivals, a newly attached
observer synchronously receives the current value as its first
notification, and its whole notification list is that value followed
only by the broadcasts caused by later source arrivals. -/
theorem replay_on_subscribe {S : Type} [DecidableEq S] (init : S)
    (past laterArrivals : List S) :
    (subscribeReceives (stateArriveAll (mkStateObservable init) past).1
        laterArrivals).head?
      = some (stateArriveAll (mkStateObservable init) past).1.value
    ∧ subscribeReceives (stateArriveAll (mkStateObservable init) past).1
        laterArrivals
      = (stateArriveAll (mkStateObservable init) past).1.value ::
        (stateArriveAll (stateArriveAll (mkStateObservable init) past).1
          laterArrivals).2 := by
  have hstop :
      (stateArriveAll (mkStateObservable init) past).1.notifierStopped
        = false :=
    stateArriveAll_stopped past (mkStateObservable init)
  constructor
  · simp [subscribeReceives, hstop]
  · simp [subscribeReceives, hstop]

/-- C5. Dedup: a value arriving on the source channel that equals the
stored value is dropped (the observable is unchanged and nothing is
broadcast), while a distinct value updates the stored value and is
broadcast; consequently two successive arrivals of the same value are
broadcast at most once in total — exactly once when the value differs
from the stored one, never twice. -/
theorem dedup_single_notification {S : Type} [DecidableEq S]
    (so : StateObservable S) (v : S) :
    stateArrive so v
      = (if v = so.value then (so, [])
         else ({ so with value := v }, [v]))
    ∧ (stateArriveAll so [v, v]).2 = (if v = so.value then [] else [v])
    ∧ (stateArriveAll so [v, v]).2.length ≤ 1 := by
  refine ⟨?_, ?_, ?_⟩
  · unfold stateArrive
    by_cases h : v = so.value <;> simp [h]
  · by_cases h : v = so.value <;>
      simp [stateArriveAll, stateArrive, h]
  · by_cases h : v = so.value <;>
      simp [stateArriveAll, stateArrive, h]

/-- C6. ofType yields exactly the present source actions whose type tag
equals one of the supplied names — it coincides with a filter by
tag-membership, so order is preserved, elements (hence payloads) are
unaltered, undefined entries and actions of other types are dropped,
and when nothing matches the result is empty; moreover the output is a
sublist of the source. -/
theorem ofType_filters_by_membership {V : Type} (keys : List String)
    (source : List (Option (RxAction V))) :
    ofType keys source = source.filter (ofTypeClaimed keys)
    ∧ (ofType keys source).Sublist source := by
  have hpt : (ofTypeMatches keys : Option (RxAction V) → Bool)
      = ofTypeClaimed keys :=
    funext (ofTypeMatches_eq_claimed keys)
  constructor
  · unfold ofType
    rw [hpt]
  · exact List.filter_sublist source

/-- C7. Disposal: the cleanup run on unmount or on an epic list change
closes every subscription retained by the activation, a subsequent
action bus push is delivered to none of them, and cleaning up a fresh
activation closes exactly its one-per-epic subscriptions. -/
theorem disposal_cancels_subscriptions (subs : List EpicSubscription)
    (n : Nat) :
    ((cleanupEffect subs).all (fun s => s.closed)) = true
    ∧ deliveredTo (cleanupEffect subs) = []
    ∧ cleanupEffect (mountSubscriptions n)
      = List.replicate n { closed := true } := by
  refine ⟨?_, ?_, ?_⟩
  · induction subs with
    | nil => rfl
    | cons s rest ih => simp [cleanupEffect]
  · induction subs with
    | nil => rfl
    | cons s rest ih => simp [cleanupEffect, deliveredTo]
  · induction n with
    | zero => rfl
    | succ m ih =>
      simp [mountSubscriptions, cleanupEffect, List.replicate_succ]

/-- C8. A handler that throws during reduction propagates its exception
synchronously through the callback invocation — the dispatch path
catches nothing and records nothing — and a caller that guards the
invocation finds the container exactly as it was: state unchanged and
still usable. -/
theorem handler_error_propagates {S V : Type} (handlers : HandlerMap S V)
    (c : Container S V) (t : String) (args : List (Option V))
    (h : S → List (Option V) → Except JsErr (Option S)) (e : JsErr)
    (hh : handlers t = some h)
    (he : h c.state [args.headD none] = Except.error e) :
    dispatchWithEpic handlers c t args = Except.error e
    ∧ dispatchCaught handlers c t args = c := by
  have hu : update handlers c.state
      { type := t, payload := args.headD none } = Except.error e := by
    unfold update
    rw [hh]
    exact he
  constructor
  · simp only [dispatchWithEpic]
    rw [hu]
  · simp only [dispatchCaught, dispatchWithEpic]
    rw [hu]

/-- Witness for C8: a concrete throwing handler propagates its error
and leaves the container untouched. -/
theorem handler_error_propagates_witness :
    dispatchWithEpic throwingHandlers
        { state := 7, lastAction := none } "boom" []
      = Except.error (JsErr.handlerError "boom")
    ∧ dispatchCaught throwingHandlers
        { state := 7, lastAction := none } "boom" []
      = { state := 7, lastAction := none } :=
  handler_error_propagates throwingHandlers
    { state := 7, lastAction := none } "boom" []
    (fun _ _ => Except.error (JsErr.handlerError "boom"))
    (JsErr.handlerError "boom") (by simp [throwingHandlers]) rfl

/-- C9. The immer flag: the shared defaults object does start with
immer true, and a first call omitting the flag resolves true; but
Object.assign mutates that shared object, so in a run where one call
passes immer false, a later call omitting the flag resolves immer
false — not the claimed default true regardless of earlier calls. -/
theorem defaults_mutated_across_calls :
    defaultOptionsInit.immer = true
    ∧ resolveOptionCalls defaultOptionsInit [{ immer := none }] = [true]
    ∧ resolveOptionCalls defaultOptionsInit
        [{ immer := some false }, { immer := none }] = [false, false] :=
  ⟨rfl, rfl, rfl⟩

/-- C10. The mount effect stores into the state ref the result of
piping the BehaviorSubject through observeOn and distinctUntilChanged —
a plain Observable with no next method — so for every container state,
pending action and action log, the deferred publication pass throws a
TypeError at its state push instead of publishing. -/
theorem piped_state_ref_next_throws {S V : Type} (init : S)
    (c : Container S V) (log : List (ContAction V)) (a : ContAction V) :
    (mkStateRef init).hasNext = false
    ∧ deferredPublicationEffect { c with lastAction := some a }
        { stateRef := mkStateRef init, actionLog := log }
      = Except.error JsErr.typeError :=
  ⟨rfl, rfl⟩

/-- C2. Evaluated on the increment example: the reduction succeeds (the
stored state becomes the post-reduction value and the action is
recorded), but the deferred publication pass throws a TypeError at the
state push, before the action bus push — so the action is never pushed
into the action bus and no epic observer receives it at all, with or
without a post-reduction state snapshot. -/
theorem publication_pass_throws_before_action :
    dispatchWithEpic incHandlers ⟨0, none⟩ "increment" []
      = Except.ok (⟨1, some ⟨"increment", none⟩⟩ : Container Nat Nat)
    ∧ deferredPublicationEffect
        (⟨1, some ⟨"increment", none⟩⟩ : Container Nat Nat)
        ⟨mkStateRef 0, []⟩
      = Except.error JsErr.typeError :=
  ⟨rfl, rfl⟩

/-- C3. The effect-only path, evaluated in non-immer mode: a handler
returning nothing leaves the stored state unchanged and skips the
reducer store dispatch, while the action is still recorded; but the
publication pass that should carry the recorded action to subscribed
epics throws a TypeError at its state push, before the action bus
push, so the action never reaches any epic. -/
theorem effect_only_records_but_pass_throws :
    dispatchWithEpic effectOnlyHandlers ⟨5, none⟩ "incrementAsync" []
      = Except.ok (⟨5, some ⟨"incrementAsync", none⟩⟩ : Container Nat Nat)
    ∧ deferredPublicationEffect
        (⟨5, some ⟨"incrementAsync", none⟩⟩ : Container Nat Nat)
        ⟨mkStateRef 5, []⟩
      = Except.error JsErr.typeError :=
  ⟨rfl, rfl⟩

/-- C1. Evaluated at a two-argument call: the dispatch path records the
action with payload equal to the first caller argument alone, and the
handler is invoked with the one-element argument list holding that
first value — the recorded state shows the handler received only the
first argument, so neither the action payload nor the handler
application carries the full caller argument sequence. -/
theorem payload_first_argument_only :
    dispatchWithEpic argRecorder ⟨[], none⟩ "add" [some 1, some 2]
      = Except.ok (⟨[[some 1]], some ⟨"add", some 1⟩⟩ :
          Container (List (List (Option Nat))) Nat) :=
  rfl

end UseEpics
